import Mathlib

/-!
Verification of the EVM chain-state provider of bitcore
(`packages/bitcore-node/src/providers/chain-state/evm/api/csp.ts` and
`erc20Transform.ts`) against its natural-language specification.

The definitions below are shallow embeddings of the TypeScript source:
JavaScript numbers are modelled as rationals, possibly-undefined values as
`Option`, thrown errors as `Except`, and asynchronous results that are already
settled as plain values.
-/

/- ### Fee estimator (`getFee` in csp.ts) -/

/-- Quartile selection of `getFee` in csp.ts: the destructuring default
`target = 4` applies when the parameter is absent, and `Math.min(target, 4) || 1`
replaces a zero (falsy) minimum with 1. -/
def whichQuartile (target : Option ℤ) : ℤ :=
  let t := target.getD 4
  let m := min t 4
  if m = 0 then 1 else m

/-- Modelled from the spec: `StatsUtil.getMedian` is not under src/ (only its
caller is). Section 4.3 asks for the median of a quartile of the sorted sample
list; it is taken here as the middle element (index `length / 2`) of the
already-sorted list, `none` on an empty list. -/
def getMedian (l : List ℚ) : Option ℚ :=
  l.get? (l.length / 2)

/-- Modelled from the spec: `StatsUtil.getNthQuartileMedian` is not under src/.
Section 4.3 partitions the descending-sorted sample list into 4 quartiles of
length `length / 4` and computes the median of quartile `q`, counted 1-based
from the front, so that quartile 1 is the highest-price quartile. -/
def getNthQuartileMedian (arr : List ℚ) (q : ℤ) : Option ℚ :=
  let quartileLength := arr.length / 4
  getMedian ((arr.drop ((q - 1).toNat * quartileLength)).take quartileLength)

/-- The sample preparation in `getFee`: keep the truthy (nonzero) gas prices and
sort them descending (`.sort((a, b) => b - a)`, a stable sort on numbers,
embedded as the stable `insertionSort`). -/
def blockGasPrices (gasPrices : List ℚ) : List ℚ :=
  List.insertionSort (fun a b => a ≥ b) (gasPrices.filter (fun g => g != 0))

/-- JavaScript `Number(x.toFixed(2))` on a rational: round to the nearest
hundredth, ties toward the larger value, exactly as `toFixed` specifies. -/
def toFixed2 (x : ℚ) : ℚ :=
  (Rat.floor (x * 100 + 1 / 2) : ℚ) / 100

/-- The fee estimator of csp.ts `getFee`, given the projected gas-price samples
of the recent-transaction query and the optional `target` parameter; returns
`(feerate, blocks)`. A quartile median that does not exist (fewer than 4
samples) propagates in the source as `NaN` through `toFixed` into `Number(x) || 0`,
hence the feerate 0 in the `none` branch; `Number(roundedGwei) || 0` maps 0 to 0
and is the identity on the rational value. -/
def getFee (gasPrices : List ℚ) (target : Option ℤ) : ℚ × ℤ :=
  let samples := blockGasPrices gasPrices
  let feerate : ℚ :=
    match getNthQuartileMedian samples (whichQuartile target) with
    | none => 0
    | some quartileMedian =>
      let gwei := toFixed2 (quartileMedian / 10 ^ 9)
      gwei * 10 ^ 9
  (feerate, target.getD 4)

/-- The rounding the spec words describe for the feerate: truncate (round down)
the gwei value at the hundredths digit, then convert back to the base unit. -/
def truncateFeerate (quartileMedian : ℚ) : ℚ :=
  (Rat.floor (quartileMedian / 10 ^ 9 * 100) : ℚ) / 100 * 10 ^ 9

/- ### Theorems for C1 -/

/-- C1 counterexample: when `target` is absent the destructuring default
`target = 4` makes the selected quartile 4, not 1 as the claim states. -/
theorem whichQuartile_undefined_counterexample :
    whichQuartile none = 4 ∧ (4 : ℤ) ≠ 1 := by
  decide

/-- C1 amended: the quartile used by `getFee` is `min(target, 4)` for every
nonzero target, a zero target falls back to quartile 1, and an absent target
defaults to 4 (not 1). -/
theorem whichQuartile_amended :
    (∀ t : ℤ, t ≠ 0 → whichQuartile (some t) = min t 4) ∧
      whichQuartile (some 0) = 1 ∧ whichQuartile none = 4 := by
  refine ⟨?_, by decide, by decide⟩
  intro t ht
  simp only [whichQuartile, Option.getD_some]
  rcases min_cases t 4 with ⟨h, _⟩ | ⟨h, _⟩ <;> rw [h] <;> simp [ht]

/-- C1 amended, witness at the concrete target 2. -/
theorem whichQuartile_amended_witness :
    whichQuartile (some 2) = min 2 4 :=
  whichQuartile_amended.1 2 (by decide)

/- ### Helper lemmas for the fee estimator -/

/-- The computational `Rat.floor` agrees with the Mathlib floor. -/
theorem ratFloor_eq_intFloor (q : ℚ) : Rat.floor q = ⌊q⌋ := by
  rw [Rat.floor_def', Rat.floor_def]

/-- The feerate component of `getFee`, written out. -/
theorem getFee_feerate (gasPrices : List ℚ) (target : Option ℤ) :
    (getFee gasPrices target).1 =
      match getNthQuartileMedian (blockGasPrices gasPrices) (whichQuartile target) with
      | none => 0
      | some m => toFixed2 (m / 10 ^ 9) * 10 ^ 9 := rfl

/-- Rounding to the nearest hundredth is monotone. -/
theorem toFixed2_mono {x y : ℚ} (h : x ≤ y) : toFixed2 x ≤ toFixed2 y := by
  unfold toFixed2
  rw [ratFloor_eq_intFloor, ratFloor_eq_intFloor]
  have hf : (⌊x * 100 + 1 / 2⌋ : ℤ) ≤ ⌊y * 100 + 1 / 2⌋ :=
    Int.floor_le_floor (by linarith)
  have hq : ((⌊x * 100 + 1 / 2⌋ : ℤ) : ℚ) ≤ ((⌊y * 100 + 1 / 2⌋ : ℤ) : ℚ) := by
    exact_mod_cast hf
  linarith

/-- A median is a member of its list. -/
theorem getMedian_mem {l : List ℚ} {m : ℚ} (h : getMedian l = some m) : m ∈ l := by
  unfold getMedian at h
  rw [List.get?_eq_some] at h
  obtain ⟨hlt, hget⟩ := h
  exact hget ▸ List.get_mem _ _ _

/-- A nonempty list has a median. -/
theorem getMedian_isSome {t : List ℚ} (h : t ≠ []) : ∃ m, getMedian t = some m := by
  have hlt : t.length / 2 < t.length :=
    Nat.div_lt_self (List.length_pos.2 h) one_lt_two
  exact ⟨t.get ⟨_, hlt⟩, List.get?_eq_get hlt⟩

/-- The prepared sample list is descending-sorted. -/
theorem blockGasPrices_sorted (gasPrices : List ℚ) :
    List.Sorted (fun a b : ℚ => a ≥ b) (blockGasPrices gasPrices) := by
  haveI : IsTotal ℚ (fun a b : ℚ => a ≥ b) := ⟨fun a b => le_total b a⟩
  haveI : IsTrans ℚ (fun a b : ℚ => a ≥ b) := ⟨fun _ _ _ h1 h2 => le_trans h2 h1⟩
  exact List.sorted_insertionSort _ _

/-- Quartile 1 is the front quartile of the sorted samples. -/
theorem getNthQuartileMedian_at1 (s : List ℚ) :
    getNthQuartileMedian s 1 = getMedian (s.take (s.length / 4)) := by
  unfold getNthQuartileMedian
  norm_num

/-- Quartile 4 is the back quartile of the sorted samples. -/
theorem getNthQuartileMedian_at4 (s : List ℚ) :
    getNthQuartileMedian s 4 = getMedian ((s.drop (3 * (s.length / 4))).take (s.length / 4)) := by
  unfold getNthQuartileMedian
  norm_num [show Int.toNat 3 = 3 from rfl]

/-- With fewer than 4 samples every quartile is empty and has no median. -/
theorem getNthQuartileMedian_none_of_small {s : List ℚ} (hL : s.length / 4 = 0) (q : ℤ) :
    getNthQuartileMedian s q = none := by
  unfold getNthQuartileMedian getMedian
  rw [hL]
  simp

/-- A member of a later quartile sits behind the first quartile. -/
theorem mem_drop_of_mem_drop_three {s : List ℚ} {m : ℚ} {L : ℕ}
    (h : m ∈ s.drop (3 * L)) : m ∈ s.drop L := by
  rw [show 3 * L = L + 2 * L by ring, ← List.drop_drop] at h
  exact List.mem_of_mem_drop h

/-- The front quartile of a long-enough sample list has a median. -/
theorem quartile1_isSome {s : List ℚ} (hL : 0 < s.length / 4) :
    ∃ m, getNthQuartileMedian s 1 = some m := by
  rw [getNthQuartileMedian_at1]
  refine getMedian_isSome (fun hnil => ?_)
  have hlen := congrArg List.length hnil
  rw [List.length_take, List.length_nil] at hlen
  have hle : s.length / 4 ≤ s.length := Nat.div_le_self _ _
  omega

/-- The back quartile of a long-enough sample list has a median. -/
theorem quartile4_isSome {s : List ℚ} (hL : 0 < s.length / 4) :
    ∃ m, getNthQuartileMedian s 4 = some m := by
  rw [getNthQuartileMedian_at4]
  refine getMedian_isSome (fun hnil => ?_)
  have hlen := congrArg List.length hnil
  rw [List.length_take, List.length_drop, List.length_nil] at hlen
  have h4 : s.length / 4 * 4 ≤ s.length := Nat.div_mul_le_self _ _
  omega

/- ### Theorems for C6 and C7 -/

/-- C6: with a fixed sample set, the feerate estimated for target 1 (fastest) is
at least the feerate estimated for target 4 (cheapest): quartile 1 samples the
highest-price quartile of the descending-sorted samples, quartile 4 the lowest. -/
theorem getFee_quartile_monotone (gasPrices : List ℚ) :
    (getFee gasPrices (some 4)).1 ≤ (getFee gasPrices (some 1)).1 := by
  rw [getFee_feerate, getFee_feerate]
  have hq1 : whichQuartile (some 1) = 1 := by decide
  have hq4 : whichQuartile (some 4) = 4 := by decide
  rw [hq1, hq4]
  by_cases hL : (blockGasPrices gasPrices).length / 4 = 0
  · rw [getNthQuartileMedian_none_of_small hL 1, getNthQuartileMedian_none_of_small hL 4]
  · have hLpos : 0 < (blockGasPrices gasPrices).length / 4 := Nat.pos_of_ne_zero hL
    obtain ⟨m1, hm1⟩ := quartile1_isSome hLpos
    obtain ⟨m4, hm4⟩ := quartile4_isSome hLpos
    rw [hm1, hm4]
    have hmem1 : m1 ∈ (blockGasPrices gasPrices).take ((blockGasPrices gasPrices).length / 4) := by
      rw [getNthQuartileMedian_at1] at hm1
      exact getMedian_mem hm1
    have hmem4 : m4 ∈ (blockGasPrices gasPrices).drop ((blockGasPrices gasPrices).length / 4) := by
      rw [getNthQuartileMedian_at4] at hm4
      exact mem_drop_of_mem_drop_three (List.take_subset _ _ (getMedian_mem hm4))
    have hle : m4 ≤ m1 :=
      (blockGasPrices_sorted gasPrices).rel_of_mem_take_of_mem_drop hmem1 hmem4
    have hmono := toFixed2_mono (show m4 / 10 ^ 9 ≤ m1 / 10 ^ 9 by gcongr)
    exact mul_le_mul_of_nonneg_right hmono (by positivity)

/-- C7 amended: when the selected quartile has a median `m`, the returned feerate
is `m` rounded to the *nearest* hundredth of its gwei equivalent (ties upward) and
converted back: an integer multiple of 10^7 base units within 5 * 10^6 of `m`. It
is not rounded down (truncated). -/
theorem getFee_round_nearest (gasPrices : List ℚ) (target : Option ℤ) (m : ℚ)
    (h : getNthQuartileMedian (blockGasPrices gasPrices) (whichQuartile target) = some m) :
    (∃ k : ℤ, (getFee gasPrices target).1 = (k : ℚ) * 10 ^ 7) ∧
      |(getFee gasPrices target).1 - m| ≤ 5 * 10 ^ 6 := by
  have hgoal : (getFee gasPrices target).1 = toFixed2 (m / 10 ^ 9) * 10 ^ 9 := by
    rw [getFee_feerate, h]
  have hform : toFixed2 (m / 10 ^ 9) * 10 ^ 9 = ((round (m / 10 ^ 7 : ℚ) : ℤ) : ℚ) * 10 ^ 7 := by
    rw [toFixed2, ratFloor_eq_intFloor, round_eq]
    rw [show m / 10 ^ 9 * 100 + 1 / 2 = m / 10 ^ 7 + 1 / 2 by ring]
    ring
  rw [hgoal, hform]
  refine ⟨⟨round (m / 10 ^ 7 : ℚ), rfl⟩, ?_⟩
  have habs := abs_sub_round (m / 10 ^ 7 : ℚ)
  have h7 : (0 : ℚ) < 10 ^ 7 := by positivity
  have heq : ((round (m / 10 ^ 7 : ℚ) : ℤ) : ℚ) * 10 ^ 7 - m =
      -((m / 10 ^ 7 - ((round (m / 10 ^ 7 : ℚ) : ℤ) : ℚ)) * 10 ^ 7) := by
    ring
  rw [heq, abs_neg, abs_mul, abs_of_pos h7]
  calc |m / 10 ^ 7 - ((round (m / 10 ^ 7 : ℚ) : ℤ) : ℚ)| * 10 ^ 7
      ≤ 1 / 2 * 10 ^ 7 := mul_le_mul_of_nonneg_right habs (le_of_lt h7)
    _ ≤ 5 * 10 ^ 6 := by norm_num

unseal Rat.mul Rat.inv Rat.add Rat.sub in
/-- C7 amended, witness: four samples of 1.239 gwei, target 1. -/
theorem getFee_round_nearest_witness :
    (∃ k : ℤ, (getFee [1239000000, 1239000000, 1239000000, 1239000000] (some 1)).1 =
        (k : ℚ) * 10 ^ 7) ∧
      |(getFee [1239000000, 1239000000, 1239000000, 1239000000] (some 1)).1 - 1239000000| ≤
        5 * 10 ^ 6 :=
  getFee_round_nearest [1239000000, 1239000000, 1239000000, 1239000000] (some 1) 1239000000
    (by decide)

unseal Rat.mul Rat.inv Rat.add Rat.sub in
/-- C7 counterexample: a quartile median of 1.239 gwei is returned as 1.24 gwei
(rounded to the nearest hundredth), while the rounding the claim words
(truncation at the hundredths digit) would give 1.23 gwei. -/
theorem getFee_truncation_counterexample :
    (getFee [1239000000, 1239000000, 1239000000, 1239000000] (some 1)).1 = 1240000000 ∧
      truncateFeerate 1239000000 = 1230000000 ∧ ((1240000000 : ℚ) ≠ 1230000000) := by
  refine ⟨by decide, by decide, by decide⟩

/- ### Token-transfer filter/expand stage (`erc20Transform.ts`) -/

/-- A decoded transfer effect inside a transaction (an entry of `tx.effects`). -/
structure Effect where
  contractAddress : String
  amount : ℚ
  «to» : String
  «from» : String
deriving DecidableEq

/-- Projection of `IEVMTransactionInProcess` to the fields the stream stages read
or copy; `blockHeight` is `Option` because old or pending records may lack it. -/
structure TxInProcess where
  txid : String
  value : ℚ
  «to» : String
  «from» : String
  blockHeight : Option ℤ
  effects : List Effect
deriving DecidableEq

/-- `IEVMTransactionTransformed`: the same record shape plus the optional
`initialFrom` field the expansion stage may set. -/
structure TxTransformed where
  txid : String
  value : ℚ
  «to» : String
  «from» : String
  blockHeight : Option ℤ
  effects : List Effect
  initialFrom : Option String
deriving DecidableEq

/-- `Object.assign(\x7b\x7d, tx)` viewed as a `TxTransformed`: every field copied,
`initialFrom` not yet present. -/
def shallowCopy (tx : TxInProcess) : TxTransformed :=
  { txid := tx.txid, value := tx.value, «to» := tx.«to», «from» := tx.«from»,
    blockHeight := tx.blockHeight, effects := tx.effects, initialFrom := none }

/-- One `_transform` step of `Erc20RelatedFilterTransform` (`erc20Transform.ts`):
the records pushed for one input record. The source guard
`tx.effects && tx.effects.length` pushes nothing when the effects list is absent
or empty; otherwise it filters the effects by contract address and pushes one
shallow copy per match, overwriting `value`, `to`, `from`, and setting
`initialFrom` only when the effect sender differs from the top-level sender. -/
def erc20Transform (tokenAddress : String) (tx : TxInProcess) : List TxTransformed :=
  if tx.effects.length ≠ 0 then
    let tokenRelatedInternalTxs :=
      tx.effects.filter (fun effect => effect.contractAddress == tokenAddress)
    tokenRelatedInternalTxs.map (fun internalTx =>
      let t0 := shallowCopy tx
      { t0 with
        value := internalTx.amount, «to» := internalTx.«to», «from» := internalTx.«from»,
        initialFrom := if internalTx.«from» ≠ tx.«from» then some tx.«from» else t0.initialFrom })
  else []

/-- The spec words for the token-transfer filter/expand stage (section 4.5, item
1): one output record per effect whose contract address equals the requested
token, each a shallow copy of the input with `value`, `to`, `from` overwritten
from the effect and `initialFrom` set exactly when the effect sender differs from
the transaction top-level sender; a record with no matching effect is dropped
(the map over an empty filter result). -/
def erc20ExpandSpec (tokenAddress : String) (tx : TxInProcess) : List TxTransformed :=
  (tx.effects.filter (fun e => e.contractAddress == tokenAddress)).map (fun e =>
    { shallowCopy tx with
      value := e.amount, «to» := e.«to», «from» := e.«from»,
      initialFrom := if e.«from» ≠ tx.«from» then some tx.«from» else none })

/- ### Theorem for C2 -/

/-- C2: the `_transform` stage of `Erc20RelatedFilterTransform` emits exactly the
records the spec describes: one per effect with the requested contract address (a
shallow copy with `value`, `to`, `from` from the effect and `initialFrom` set
exactly when the senders differ), and zero records when no effect matches. -/
theorem erc20Transform_matches_spec :
    ∀ tokenAddress tx, erc20Transform tokenAddress tx = erc20ExpandSpec tokenAddress tx := by
  intro tokenAddress tx
  unfold erc20Transform erc20ExpandSpec
  by_cases h : tx.effects.length ≠ 0
  · rw [if_pos h]
    simp [shallowCopy]
  · rw [if_neg h]
    simp only [ne_eq, not_not] at h
    rw [List.length_eq_zero] at h
    simp [h]

/- ### Confirmations (`getTransaction` and `streamTransactions` in csp.ts) -/

/-- Confirmations in `getTransaction` (csp.ts): the guard
`found.blockHeight && found.blockHeight >= 0` requires a defined and truthy
(nonzero) height before computing `tipHeight - blockHeight + 1`. -/
def confirmationsGetTransaction (tipHeight : ℤ) (blockHeight : Option ℤ) : ℤ :=
  match blockHeight with
  | none => 0
  | some h => if h ≠ 0 ∧ 0 ≤ h then tipHeight - h + 1 else 0

/-- Confirmations in the `streamTransactions` shaper (csp.ts): the guard is
`t.blockHeight !== undefined && t.blockHeight >= 0`, so height 0 counts. -/
def confirmationsStream (tipHeight : ℤ) (blockHeight : Option ℤ) : ℤ :=
  match blockHeight with
  | none => 0
  | some h => if 0 ≤ h then tipHeight - h + 1 else 0

/- ### Theorems for C3 -/

/-- C3 counterexample: a record at block height 0 has a block height, so the
claim demands `tipHeight - 0 + 1 = 101` at tip 100, but `getTransaction`
computes 0 because its truthiness guard `found.blockHeight &&` rejects 0. -/
theorem confirmations_zero_height_counterexample :
    confirmationsGetTransaction 100 (some 0) = 0 ∧ (0 : ℤ) ≠ 100 - 0 + 1 := by
  decide

/-- C3 amended: both shapers compute `tipHeight - blockHeight + 1` for a positive
block height and 0 for an undefined or negative one (tip 100, height 95 gives 6);
at block height 0 they disagree: `getTransaction` returns 0 while
`streamTransactions` returns `tipHeight + 1`. -/
theorem confirmations_amended :
    (∀ tip h : ℤ, 0 < h →
        confirmationsGetTransaction tip (some h) = tip - h + 1 ∧
          confirmationsStream tip (some h) = tip - h + 1) ∧
      (∀ tip h : ℤ, h < 0 →
        confirmationsGetTransaction tip (some h) = 0 ∧
          confirmationsStream tip (some h) = 0) ∧
      (∀ tip : ℤ,
        confirmationsGetTransaction tip none = 0 ∧ confirmationsStream tip none = 0) ∧
      (∀ tip : ℤ,
        confirmationsGetTransaction tip (some 0) = 0 ∧
          confirmationsStream tip (some 0) = tip + 1) ∧
      confirmationsGetTransaction 100 (some 95) = 6 := by
  refine ⟨?_, ?_, ?_, ?_, by decide⟩
  · intro tip h hh
    refine ⟨?_, ?_⟩
    · show (if h ≠ 0 ∧ 0 ≤ h then tip - h + 1 else 0) = tip - h + 1
      rw [if_pos ⟨by omega, by omega⟩]
    · show (if 0 ≤ h then tip - h + 1 else 0) = tip - h + 1
      rw [if_pos (by omega)]
  · intro tip h hh
    refine ⟨?_, ?_⟩
    · show (if h ≠ 0 ∧ 0 ≤ h then tip - h + 1 else 0) = 0
      rw [if_neg (by omega)]
    · show (if 0 ≤ h then tip - h + 1 else 0) = 0
      rw [if_neg (by omega)]
  · intro tip
    exact ⟨rfl, rfl⟩
  · intro tip
    refine ⟨?_, ?_⟩
    · show (if (0 : ℤ) ≠ 0 ∧ (0 : ℤ) ≤ 0 then tip - 0 + 1 else 0) = 0
      rw [if_neg (by omega)]
    · show (if (0 : ℤ) ≤ 0 then tip - 0 + 1 else 0) = tip + 1
      rw [if_pos (by omega)]
      omega

/-- C3 amended, witness: tip 100 and block height 95 give 6 confirmations. -/
theorem confirmations_amended_witness :
    confirmationsGetTransaction 100 (some 95) = 100 - 95 + 1 ∧
      confirmationsStream 100 (some 95) = 100 - 95 + 1 :=
  confirmations_amended.1 100 95 (by decide)

/- ### `getTransaction` (csp.ts): validation and the surrounding try/catch -/

/-- A JavaScript value in the `txId` position; `typeof txId !== 'string'` is the
validation the code performs. -/
inductive JsVal where
  | undef : JsVal
  | str : String → JsVal
  | num : ℤ → JsVal
deriving DecidableEq

/-- The check `typeof txId === 'string'`. -/
def JsVal.isString : JsVal → Bool
  | .str _ => true
  | _ => false

/-- The API shape returned for a found transaction, projected to the identifier
and the computed confirmations. -/
structure TxApiShape where
  txid : String
  confirmations : ℤ
deriving DecidableEq

/-- The body of `getTransaction` (csp.ts) before its try/catch: throw
`Missing required param` when `txId` is not a string or `chain`/`network` is
falsy (absent, modelled by the empty string); otherwise shape the found record
with confirmations against the local tip (`tip ? tip.height : 0`), or resolve to
`undefined` (`none`) when no record was found. The receipt and effects
enrichment touches no field modelled here. -/
def getTransactionBody (txId : JsVal) (chain network : String)
    (tip : Option ℤ) (found : Option TxInProcess) : Except String (Option TxApiShape) :=
  if txId.isString = false ∨ chain = "" ∨ network = "" then
    .error "Missing required param"
  else
    let tipHeight := tip.getD 0
    match found with
    | some tx =>
      .ok (some { txid := tx.txid,
                  confirmations := confirmationsGetTransaction tipHeight tx.blockHeight })
    | none => .ok none

/-- `getTransaction` as its caller observes it: the whole body runs inside
`try ... catch (err) ... console.error(err) ... return undefined`, so any thrown
error is logged, swallowed, and surfaces to the caller as `undefined`. -/
def getTransaction (txId : JsVal) (chain network : String)
    (tip : Option ℤ) (found : Option TxInProcess) : Option TxApiShape :=
  match getTransactionBody txId chain network tip found with
  | .ok r => r
  | .error _ => none

/- ### Theorems for C8 -/

/-- C8 counterexample: with a non-string `txId` the body throws the validation
error, but the surrounding catch swallows it: the caller receives `undefined`
(the same observable result as a not-found lookup), not an error. -/
theorem getTransaction_validation_counterexample :
    getTransactionBody (.num 5) "ETH" "mainnet" (some 100)
        (some (TxInProcess.mk "a1" 0 "B" "A" (some 95) [])) =
      .error "Missing required param" ∧
      getTransaction (.num 5) "ETH" "mainnet" (some 100)
        (some (TxInProcess.mk "a1" 0 "B" "A" (some 95) [])) = none ∧
      getTransaction (.str "a1") "ETH" "mainnet" (some 100) none = none := by
  refine ⟨rfl, rfl, rfl⟩

/-- C8 amended: a missing or malformed required parameter (non-string txId,
falsy chain or network) makes the body fail fast with the validation error
`Missing required param` and no retry, but `getTransaction` catches its own
error and the caller receives `undefined` rather than the error. -/
theorem getTransaction_validation_amended (txId : JsVal) (chain network : String)
    (tip : Option ℤ) (found : Option TxInProcess)
    (h : txId.isString = false ∨ chain = "" ∨ network = "") :
    getTransactionBody txId chain network tip found = .error "Missing required param" ∧
      getTransaction txId chain network tip found = none := by
  have hbody : getTransactionBody txId chain network tip found =
      .error "Missing required param" := by
    unfold getTransactionBody
    rw [if_pos h]
  refine ⟨hbody, ?_⟩
  unfold getTransaction
  rw [hbody]

/-- C8 amended, witness: a call with an absent chain. -/
theorem getTransaction_validation_amended_witness :
    getTransactionBody (.str "a1") "" "mainnet" none none = .error "Missing required param" ∧
      getTransaction (.str "a1") "" "mainnet" none none = none :=
  getTransaction_validation_amended (.str "a1") "" "mainnet" none none (by decide)

/- ### Wallet balance aggregation (`getWalletBalance` in csp.ts) -/

/-- The balance object returned by the balance reader and the aggregator. -/
structure Balance where
  confirmed : ℚ
  unconfirmed : ℚ
  balance : ℚ
deriving DecidableEq

/-- The reducer lambda of `getWalletBalance` (csp.ts): field-wise addition onto
the accumulator (`Number(cur.x)` is the identity on an already numeric value). -/
def balanceStep (prev cur : Balance) : Balance :=
  { unconfirmed := prev.unconfirmed + cur.unconfirmed,
    confirmed := prev.confirmed + cur.confirmed,
    balance := prev.balance + cur.balance }

/-- The reduction in `getWalletBalance`: fold the per-address balances field-wise
onto the initial accumulator with all fields 0. -/
def reduceBalances (addressBalances : List Balance) : Balance :=
  addressBalances.foldl balanceStep { unconfirmed := 0, confirmed := 0, balance := 0 }

/-- `Promise.all` over already-settled outcomes: the ordered list of results, or
the first rejection. -/
def promiseAll {α : Type} : List (Except String α) → Except String (List α)
  | [] => .ok []
  | x :: xs =>
    match x with
    | .error e => .error e
    | .ok a =>
      match promiseAll xs with
      | .error e => .error e
      | .ok rest => .ok (a :: rest)

/-- `getWalletBalance` (csp.ts): a wallet without `_id` throws; otherwise the
per-address balance lookups run under `Promise.all` (modelled by the list of
their settled outcomes, in address order) and the successful results are reduced
field-wise. -/
def getWalletBalance (walletId : Option String)
    (lookups : List (Except String Balance)) : Except String Balance :=
  if walletId = none then
    .error "Wallet balance can only be retrieved for wallets with the _id property"
  else
    match promiseAll lookups with
    | .error e => .error e
    | .ok addressBalances => .ok (reduceBalances addressBalances)

/-- Field-wise numeric sum of balance objects, as the spec words it. -/
def sumBalances (addressBalances : List Balance) : Balance :=
  { confirmed := (addressBalances.map Balance.confirmed).sum,
    unconfirmed := (addressBalances.map Balance.unconfirmed).sum,
    balance := (addressBalances.map Balance.balance).sum }

/-- Folding balances from any accumulator adds the field-wise sums. -/
theorem foldl_balanceStep (l : List Balance) (b : Balance) :
    l.foldl balanceStep b =
      { confirmed := b.confirmed + (l.map Balance.confirmed).sum,
        unconfirmed := b.unconfirmed + (l.map Balance.unconfirmed).sum,
        balance := b.balance + (l.map Balance.balance).sum } := by
  induction l generalizing b with
  | nil => simp
  | cons x xs ih =>
    simp only [List.foldl_cons, List.map_cons, List.sum_cons, ih]
    simp [balanceStep]
    refine ⟨by ring, by ring, by ring⟩

/-- The source reduction equals the field-wise sum the spec describes. -/
theorem reduceBalances_eq_sum (l : List Balance) : reduceBalances l = sumBalances l := by
  rw [reduceBalances, foldl_balanceStep]
  simp [sumBalances]

/-- `Promise.all` over only fulfilled outcomes yields all their values. -/
theorem promiseAll_ok (l : List Balance) :
    promiseAll (l.map Except.ok) = .ok l := by
  induction l with
  | nil => rfl
  | cons x xs ih => simp [promiseAll, ih]

/- ### Theorems for C4 and C5 -/

/-- C4: with a defined wallet id, `getWalletBalance` returns the field-wise
numeric sum of the per-address balance objects; without an id it fails with an
error. -/
theorem getWalletBalance_fieldwise_sum :
    (∀ (wid : String) (balances : List Balance),
        getWalletBalance (some wid) (balances.map Except.ok) = .ok (sumBalances balances)) ∧
      ∀ lookups, ∃ e, getWalletBalance none lookups = .error e := by
  constructor
  · intro wid balances
    unfold getWalletBalance
    rw [if_neg (by simp), promiseAll_ok]
    show Except.ok (reduceBalances balances) = Except.ok (sumBalances balances)
    rw [reduceBalances_eq_sum]
  · intro lookups
    exact ⟨_, rfl⟩

/-- A rejection behind only fulfilled outcomes is the first rejection
`Promise.all` settles with. -/
theorem promiseAll_first_error (e : String) (post : List (Except String Balance)) :
    ∀ pre : List (Except String Balance), (∀ x ∈ pre, ∃ b, x = .ok b) →
      promiseAll (pre ++ .error e :: post) = .error e := by
  intro pre
  induction pre with
  | nil => intro _; rfl
  | cons x xs ih =>
    intro hpre
    obtain ⟨b, hb⟩ := hpre x (List.mem_cons_self x xs)
    subst hb
    simp [promiseAll, ih (fun y hy => hpre y (List.mem_cons_of_mem _ hy))]

/-- C5: when any single address lookup fails, the whole `getWalletBalance` call
fails with that (first-failing) error; no partial balance object is produced. -/
theorem getWalletBalance_fail_on_error (wid : String)
    (pre post : List (Except String Balance)) (e : String)
    (hpre : ∀ x ∈ pre, ∃ b, x = .ok b) :
    getWalletBalance (some wid) (pre ++ .error e :: post) = .error e := by
  unfold getWalletBalance
  rw [if_neg (by simp), promiseAll_first_error e post pre hpre]

/-- C5, witness: one successful lookup followed by one failing lookup. -/
theorem getWalletBalance_fail_on_error_witness :
    getWalletBalance (some "w1")
        ([.ok (Balance.mk 10 0 10)] ++ .error "node unreachable" :: []) =
      .error "node unreachable" :=
  getWalletBalance_fail_on_error "w1" [.ok (Balance.mk 10 0 10)] [] "node unreachable"
    (fun x hx => ⟨Balance.mk 10 0 10, by
      rw [List.mem_singleton] at hx
      exact hx⟩)

/- ### `broadcastTransaction` (csp.ts) -/

/-- The `rawTx` parameter: a single raw transaction string or an array of them. -/
inductive RawTxParam where
  | str : String → RawTxParam
  | arr : List String → RawTxParam

/-- The broadcast result: a single txid or a list of txids. -/
inductive BroadcastResult where
  | single : String → BroadcastResult
  | list : List String → BroadcastResult
deriving DecidableEq

/-- `broadcastTransaction` (csp.ts), with the submission of one raw transaction
modelled by `send` (the hash the node resolves for it): a string input is
wrapped into a one-element array, the ids are collected in input order, and
`txids.length === 1 ? txids[0] : txids` collapses a length-1 result to the bare
id. -/
def broadcastTransaction (send : String → String) (rawTx : RawTxParam) : BroadcastResult :=
  let rawTxs := match rawTx with | .str s => [s] | .arr l => l
  let txids := rawTxs.map send
  match txids with
  | [t] => .single t
  | ts => .list ts

/- ### Theorem for C10 -/

/-- C10: broadcasting a one-element list returns the bare txid, the same shape
as broadcasting the plain string; a list of two or more returns the list of ids
in input order. -/
theorem broadcastTransaction_shape (send : String → String) :
    (∀ s : String,
        broadcastTransaction send (.arr [s]) = .single (send s) ∧
          broadcastTransaction send (.arr [s]) = broadcastTransaction send (.str s)) ∧
      ∀ l : List String, 2 ≤ l.length →
        broadcastTransaction send (.arr l) = .list (l.map send) := by
  constructor
  · intro s
    exact ⟨rfl, rfl⟩
  · intro l hl
    match l, hl with
    | x :: y :: rest, _ => rfl

/-- C10, witness: a two-element list with the identity submission. -/
theorem broadcastTransaction_shape_witness :
    2 ≤ (["a", "b"] : List String).length ∧
      broadcastTransaction (fun s => s) (.arr ["a", "b"]) =
        .list ((["a", "b"] : List String).map (fun s => s)) :=
  ⟨by decide, (broadcastTransaction_shape (fun s => s)).2 ["a", "b"] (by decide)⟩

/- ### Wallet registration (`updateWallet` in csp.ts) -/

/-- A wallet-address registration document, projected to the wallet id and the
address that the unique index covers (`chain` and `network` are fixed within one
call; the `processed` flag carries no information for the properties proved
here). -/
structure WalletAddressDoc where
  wallet : String
  address : String
deriving DecidableEq

/-- A MongoDB write error; code 11000 is the duplicate-key error. -/
structure MongoError where
  code : ℤ
deriving DecidableEq

/-- A transaction document, projected to the address fields the `updateMany`
query matches on and the `wallets` tag list the update extends. -/
structure TxDoc where
  txid : String
  «to» : String
  «from» : String
  effects : List Effect
  wallets : List String
deriving DecidableEq

/-- The `$or` query of `updateWallet`'s `updateMany`, over the fields modelled
here: top-level `from`/`to` against the raw batch and effect `to`/`from` against
the lowercased batch. (The `internal.action.to` and `calls` clauses concern
legacy database shapes carrying no counterpart in this model.) -/
def txMatchesAddresses (addressBatch addressBatchLC : List String) (tx : TxDoc) : Bool :=
  addressBatch.contains tx.«from» || addressBatch.contains tx.«to» ||
    tx.effects.any (fun e => addressBatchLC.contains e.«to») ||
    tx.effects.any (fun e => addressBatchLC.contains e.«from»)

/-- MongoDB `$addToSet`: append the value only when it is not already present. -/
def addToSet (l : List String) (x : String) : List String :=
  if l.contains x then l else l ++ [x]

/-- An ordered `bulkWrite` of `insertOne` documents against the unique
wallet-address index: documents insert in order until one is already present,
which stops the batch with duplicate-key code 11000. -/
def bulkWriteInserts :
    List WalletAddressDoc → List WalletAddressDoc →
      List WalletAddressDoc × Option MongoError
  | store, [] => (store, none)
  | store, d :: ds =>
    if store.contains d then (store, some { code := 11000 })
    else bulkWriteInserts (store ++ [d]) ds

/-- The catch clause of `updateWallet` (csp.ts): `if (err.code !== 11000) throw
err` suppresses the duplicate-key outcome and rethrows everything else. -/
def suppressDuplicateKey (werr : Option MongoError) : Except MongoError Unit :=
  match werr with
  | some err => if err.code ≠ 11000 then .error err else .ok ()
  | none => .ok ()

/-- The state of the two collections `updateWallet` writes to. -/
structure DbState where
  walletAddresses : List WalletAddressDoc
  txs : List TxDoc
deriving DecidableEq

/-- The `$addToSet: (wallets := wallet._id)` update applied to every matching
transaction document. -/
def tagMatchingTxs (wid : String) (addressBatch : List String) (txs : List TxDoc) : List TxDoc :=
  let addressBatchLC := addressBatch.map (fun a => a.toLower)
  txs.map (fun tx =>
    if txMatchesAddresses addressBatch addressBatchLC tx then
      { tx with wallets := addToSet tx.wallets wid }
    else tx)

/-- One batch of `updateWallet` (csp.ts; the source cuts `params.addresses` into
batches of 500 and runs this per batch): bulk-insert the registration documents
with `processed: false`, suppress a duplicate-key outcome (any other write error
propagates), then `$addToSet` the wallet id onto every matching transaction. -/
def updateWallet (wid : String) (addressBatch : List String)
    (st : DbState) : Except MongoError DbState :=
  let walletAddressInserts := addressBatch.map (fun address => WalletAddressDoc.mk wid address)
  let res := bulkWriteInserts st.walletAddresses walletAddressInserts
  match suppressDuplicateKey res.2 with
  | .error err => .error err
  | .ok _ =>
    .ok { walletAddresses := res.1, txs := tagMatchingTxs wid addressBatch st.txs }

/- ### Theorems for C9 -/

/-- An insert batch whose head document is already registered stops immediately
with the duplicate-key outcome and leaves the store unchanged. -/
theorem bulkWriteInserts_head_registered (store : List WalletAddressDoc)
    (d : WalletAddressDoc) (ds : List WalletAddressDoc) (hd : d ∈ store) :
    bulkWriteInserts store (d :: ds) = (store, some { code := 11000 }) := by
  simp only [bulkWriteInserts]
  rw [if_pos (by simpa using hd)]

/-- `$addToSet` of an already present value changes nothing. -/
theorem addToSet_mem {l : List String} {x : String} (hx : x ∈ l) : addToSet l x = l := by
  unfold addToSet
  rw [if_pos (by simpa using hx)]

/-- Tagging transactions that all already carry the wallet id changes nothing. -/
theorem tagMatchingTxs_already_tagged (wid : String) (addressBatch : List String)
    (txs : List TxDoc) (htag : ∀ tx ∈ txs, wid ∈ tx.wallets) :
    tagMatchingTxs wid addressBatch txs = txs := by
  unfold tagMatchingTxs
  have hcongr :
      txs.map (fun tx =>
        if txMatchesAddresses addressBatch (addressBatch.map (fun a => a.toLower)) tx then
          { tx with wallets := addToSet tx.wallets wid }
        else tx) = txs.map id := by
    apply List.map_congr_left
    intro tx htx
    by_cases hm : txMatchesAddresses addressBatch (addressBatch.map (fun a => a.toLower)) tx
    · simp [hm, addToSet_mem (htag tx htx)]
    · simp [hm]
  rw [hcongr, List.map_id]

/-- C9: re-registering a batch headed by an already-registered address hits the
duplicate-key outcome (code 11000), which `updateWallet` suppresses: the call
succeeds and the state is unchanged, in particular no duplicate wallet id is
added to any already-tagged transaction; `$addToSet` never duplicates a present
id; and the catch clause rethrows every write error whose code is not 11000. -/
theorem updateWallet_idempotent (wid a : String) (addressBatch : List String)
    (st : DbState)
    (hreg : WalletAddressDoc.mk wid a ∈ st.walletAddresses)
    (htag : ∀ tx ∈ st.txs, wid ∈ tx.wallets) :
    updateWallet wid (a :: addressBatch) st = .ok st ∧
      (∀ (l : List String) (x : String), x ∈ l → addToSet l x = l) ∧
      ∀ err : MongoError, err.code ≠ 11000 → suppressDuplicateKey (some err) = .error err := by
  refine ⟨?_, fun l x hx => addToSet_mem hx, fun err herr => ?_⟩
  · unfold updateWallet
    simp only [List.map_cons]
    rw [bulkWriteInserts_head_registered st.walletAddresses _ _ hreg]
    simp only [suppressDuplicateKey]
    rw [if_neg (by omega)]
    rw [tagMatchingTxs_already_tagged wid (a :: addressBatch) st.txs htag]
  · show (if err.code ≠ 11000 then Except.error err else Except.ok ()) = Except.error err
    rw [if_pos herr]

/-- C9, witness: one registered address, one already-tagged transaction, and a
foreign write error with code 11001. -/
theorem updateWallet_idempotent_witness :
    updateWallet "w1" ["Addr1"]
        (DbState.mk [WalletAddressDoc.mk "w1" "Addr1"]
          [TxDoc.mk "t1" "B" "Addr1" [] ["w1"]]) =
      .ok (DbState.mk [WalletAddressDoc.mk "w1" "Addr1"]
          [TxDoc.mk "t1" "B" "Addr1" [] ["w1"]]) ∧
      addToSet ["w1"] "w1" = ["w1"] ∧
      suppressDuplicateKey (some { code := 11001 }) = .error { code := 11001 } := by
  have h := updateWallet_idempotent "w1" "Addr1" []
    (DbState.mk [WalletAddressDoc.mk "w1" "Addr1"] [TxDoc.mk "t1" "B" "Addr1" [] ["w1"]])
    (by decide) (by decide)
  exact ⟨h.1, h.2.1 ["w1"] "w1" (by decide), h.2.2 { code := 11001 } (by decide)⟩
